import Mathlib

/-!
Verification of the HDR transfer-function engine and histogram code.

The JavaScript/TypeScript sources are embedded shallowly over `ℝ`:
`Math.pow` becomes `Real.rpow`, `Math.sqrt` becomes `Real.sqrt`,
`Math.log` becomes `Real.log`, `Math.exp` becomes `Real.exp`,
`Math.floor` becomes `Int.floor`, and `Math.min`/`Math.max` become
`min`/`max`.  Where JavaScript produces the IEEE value NaN from `0/0`
(histogram normalization over zero pixels) the embedding returns
`none : Option ℝ`; a finite result `x` is `some x`.
-/

namespace HDR

/-- From src/script.js, `TransferFunctions.sRGB.encode` (identical in
src/src/js/srgb.js): piecewise linear/gamma encoding. -/
noncomputable def sRGB_encode (linear : ℝ) : ℝ :=
  if linear ≤ 0.0031308 then 12.92 * linear
  else 1.055 * linear ^ ((1 : ℝ) / 2.4) - 0.055

/-- From src/script.js, `TransferFunctions.sRGB.decode` (identical in
src/src/js/srgb.js): the piecewise inverse with threshold 0.04045. -/
noncomputable def sRGB_decode (srgb : ℝ) : ℝ :=
  if srgb ≤ 0.04045 then srgb / 12.92
  else ((srgb + 0.055) / 1.055) ^ (2.4 : ℝ)

/-- The linear arm `12.92 * linear` of `sRGB.encode`, as its own function so
that the two arms can be compared at the branch threshold. -/
noncomputable def sRGB_encodeLinearSegment (linear : ℝ) : ℝ := 12.92 * linear

/-- The gamma arm `1.055 * linear^(1/2.4) - 0.055` of `sRGB.encode`. -/
noncomputable def sRGB_encodeGammaSegment (linear : ℝ) : ℝ :=
  1.055 * linear ^ ((1 : ℝ) / 2.4) - 0.055

/-- From src/script.js, `TransferFunctions.PQ.encode` (ST.2084): the input is
clamped to [0,1] and the PQ curve applied. -/
noncomputable def PQ_encode (linear : ℝ) : ℝ :=
  let m1 : ℝ := 0.1593017578125
  let m2 : ℝ := 78.84375
  let c1 : ℝ := 0.8359375
  let c2 : ℝ := 18.8515625
  let c3 : ℝ := 18.6875
  let Y := max 0 (min 1 linear)
  let Ym1 := Y ^ m1
  ((c1 + c2 * Ym1) / (1 + c3 * Ym1)) ^ m2

/-- From src/script.js, `TransferFunctions.PQ.decode`. -/
noncomputable def PQ_decode (pq : ℝ) : ℝ :=
  let m1 : ℝ := 0.1593017578125
  let m2 : ℝ := 78.84375
  let c1 : ℝ := 0.8359375
  let c2 : ℝ := 18.8515625
  let c3 : ℝ := 18.6875
  let E := max 0 (min 1 pq)
  let Em1 := E ^ ((1 : ℝ) / m2)
  let num := max 0 (Em1 - c1)
  let den := c2 - c3 * Em1
  if den = 0 then 0 else (num / den) ^ ((1 : ℝ) / m1)

/-- From src/script.js, `TransferFunctions.HLG.encode` (BT.2100 OETF) with the
hard-coded constants a = 0.17883277, b = 0.28466892, c = 0.55991073. -/
noncomputable def HLG_encode (linear : ℝ) : ℝ :=
  let a : ℝ := 0.17883277
  let b : ℝ := 0.28466892
  let c : ℝ := 0.55991073
  if linear ≤ 0 then 0
  else if linear ≤ 1 / 12 then Real.sqrt (3 * linear)
  else a * Real.log (12 * linear - b) + c

/-- From src/script.js, `TransferFunctions.HLG.decode` (BT.2100 inverse OETF). -/
noncomputable def HLG_decode (hlg : ℝ) : ℝ :=
  let a : ℝ := 0.17883277
  let b : ℝ := 0.28466892
  let c : ℝ := 0.55991073
  if hlg ≤ 0 then 0
  else if hlg ≤ 0.5 then hlg ^ 2 / 3
  else (Real.exp ((hlg - c) / a) + b) / 12

/-- From src/src/lib/histogram.ts, `PQ.encode`: converts the system's relative
scale (1.0 = 100 nits) to absolute nits, normalizes by the 10,000-nit PQ peak,
then applies the PQ curve. -/
noncomputable def libPQ_encode (linear : ℝ) : ℝ :=
  let m1 : ℝ := 0.1593017578125
  let m2 : ℝ := 78.84375
  let c1 : ℝ := 0.8359375
  let c2 : ℝ := 18.8515625
  let c3 : ℝ := 18.6875
  let peakNits : ℝ := 10000
  let nits := linear * 100
  let Y := max 0 (nits / peakNits)
  let Ym1 := Y ^ m1
  ((c1 + c2 * Ym1) / (1 + c3 * Ym1)) ^ m2

/-- The denominator `c2 - c3 * E^(1/m2)` computed inside
src/src/lib/histogram.ts `PQ.decode`, as its own function. -/
noncomputable def libPQ_decodeDenominator (pq : ℝ) : ℝ :=
  18.8515625 - 18.6875 * (max 0 (min 1 pq)) ^ ((1 : ℝ) / 78.84375)

/-- From src/src/lib/histogram.ts, `PQ.decode`: clamp to [0,1], invert the PQ
curve guarding against a non-positive denominator, then convert back from the
10,000-nit absolute scale to the relative scale (1.0 = 100 nits). -/
noncomputable def libPQ_decode (pq : ℝ) : ℝ :=
  let m1 : ℝ := 0.1593017578125
  let m2 : ℝ := 78.84375
  let c1 : ℝ := 0.8359375
  let c2 : ℝ := 18.8515625
  let c3 : ℝ := 18.6875
  let peakNits : ℝ := 10000
  let E := max 0 (min 1 pq)
  let Em2 := E ^ ((1 : ℝ) / m2)
  let num := max 0 (Em2 - c1)
  let den := c2 - c3 * Em2
  if den ≤ 0 then 0 else (num / den) ^ ((1 : ℝ) / m1) * peakNits / 100

/-- The same computation as `libPQ_decode` but with the division-by-zero guard
removed, used to state that the guard branch is unreachable. -/
noncomputable def libPQ_decodeUnguarded (pq : ℝ) : ℝ :=
  let m1 : ℝ := 0.1593017578125
  let m2 : ℝ := 78.84375
  let c1 : ℝ := 0.8359375
  let c2 : ℝ := 18.8515625
  let c3 : ℝ := 18.6875
  let peakNits : ℝ := 10000
  let E := max 0 (min 1 pq)
  let Em2 := E ^ ((1 : ℝ) / m2)
  let num := max 0 (Em2 - c1)
  let den := c2 - c3 * Em2
  (num / den) ^ ((1 : ℝ) / m1) * peakNits / 100

/-- The ambient mutable globals of src/unnamed/part_009 that are visible to
the transfer functions defined there. -/
structure Globals where
  viewMode : String
  transferMode : String
  peakBrightness : ℝ

/-- From src/unnamed/part_009, `TransferFunctions.sRGB.encode`: the ambient
globals are in scope but not read. -/
noncomputable def part009_sRGB_encode (g : Globals) (linear : ℝ) : ℝ :=
  if linear ≤ 0.0031308 then 12.92 * linear
  else 1.055 * linear ^ ((1 : ℝ) / 2.4) - 0.055

/-- From src/unnamed/part_009, `TransferFunctions.PQ.encode`: the ambient
globals are in scope but not read. -/
noncomputable def part009_PQ_encode (g : Globals) (linear : ℝ) : ℝ :=
  let m1 : ℝ := 0.1593017578125
  let m2 : ℝ := 78.84375
  let c1 : ℝ := 0.8359375
  let c2 : ℝ := 18.8515625
  let c3 : ℝ := 18.6875
  let Y := max 0 (linear * 0.01)
  let Ym1 := Y ^ m1
  ((c1 + c2 * Ym1) / (1 + c3 * Ym1)) ^ m2

/-- From src/unnamed/part_009, `TransferFunctions.HLG.encode`: the input is
rescaled by the mutable global `peakBrightness` that is read inside the
function body. -/
noncomputable def part009_HLG_encode (g : Globals) (linear : ℝ) : ℝ :=
  let a : ℝ := 0.17883277
  let b : ℝ := 1 - 4 * a
  let c : ℝ := 0.5 - a * Real.log (4 * a)
  if linear ≤ 0 then 0
  else
    let E := linear * 100 / g.peakBrightness
    if E ≤ 1 / 12 then Real.sqrt 3 * E ^ ((0.5 : ℝ))
    else a * Real.log (12 * E - b) + c

/-- From src/unnamed/part_009, `TransferFunctions.sRGB.decode`: the ambient
globals are in scope but not read. -/
noncomputable def part009_sRGB_decode (g : Globals) (srgb : ℝ) : ℝ :=
  if srgb ≤ 0.04045 then srgb / 12.92
  else ((srgb + 0.055) / 1.055) ^ (2.4 : ℝ)

/-- From src/unnamed/part_009, `TransferFunctions.PQ.decode`: the ambient
globals are in scope but not read. -/
noncomputable def part009_PQ_decode (g : Globals) (pq : ℝ) : ℝ :=
  let m1 : ℝ := 0.1593017578125
  let m2 : ℝ := 78.84375
  let c1 : ℝ := 0.8359375
  let c2 : ℝ := 18.8515625
  let c3 : ℝ := 18.6875
  let E := max 0 pq
  let Em1 := E ^ ((1 : ℝ) / m2)
  let num := max 0 (Em1 - c1)
  let den := c2 - c3 * Em1
  if den = 0 then 0 else (num / den) ^ ((1 : ℝ) / m1) * 100

/-- From src/unnamed/part_009, `TransferFunctions.HLG.decode`: the result is
rescaled by the mutable global `peakBrightness` that is read inside the
function body (`return (E * peakBrightness) / 100`). -/
noncomputable def part009_HLG_decode (g : Globals) (hlg : ℝ) : ℝ :=
  let a : ℝ := 0.17883277
  let b : ℝ := 1 - 4 * a
  let c : ℝ := 0.5 - a * Real.log (4 * a)
  if hlg < 0 then 0
  else
    let E := if hlg ≤ 0.5 then hlg ^ 2 / 3 else (Real.exp ((hlg - c) / a) + b) / 12
    E * g.peakBrightness / 100

/-- From src/src/js/hlg.js, `HLG.encode` (the variant whose EOTF outputs
nits): square root below the 1.0 transition, logarithm above. -/
noncomputable def hlgjs_encode (linear : ℝ) : ℝ :=
  let a : ℝ := 0.17883277
  let b : ℝ := 0.28466892
  let c : ℝ := 0.55991073
  if linear ≤ 0 then 0
  else if linear ≤ 1 then Real.sqrt linear / 2
  else a * Real.log (linear - b) + c

/-- From src/src/js/hlg.js, `HLG.decode` paired with `hlgjs_encode`. -/
noncomputable def hlgjs_decode (hlg : ℝ) : ℝ :=
  let a : ℝ := 0.17883277
  let b : ℝ := 0.28466892
  let c : ℝ := 0.55991073
  if hlg ≤ 0 then 0
  else if hlg ≤ 0.5 then 4 * hlg ^ 2
  else Real.exp ((hlg - c) / a) + b

/-- From src/src/js/hlg.js, `HLG.signalToNits(hlg, peakBrightness)`: peak
brightness is an explicit parameter (JavaScript default 1000), not ambient
state. -/
noncomputable def hlgjs_signalToNits (hlg : ℝ) (peakBrightness : ℝ) : ℝ :=
  let systemGamma : ℝ := 1.2
  (hlgjs_decode hlg) ^ systemGamma * peakBrightness

/-- From src/src/js/hlg.js, `HLG.nitsToSignal(nits, peakBrightness)`: peak
brightness is an explicit parameter (JavaScript default 1000), not ambient
state. -/
noncomputable def hlgjs_nitsToSignal (nits : ℝ) (peakBrightness : ℝ) : ℝ :=
  let systemGamma : ℝ := 1.2
  hlgjs_encode ((nits / peakBrightness) ^ ((1 : ℝ) / systemGamma))

/-- From src/unnamed/part_011 (lines 916-917): the app-level wrapper
`TransferFunctions.HLG.signalToNits = (signal) => HLG.signalToNits(signal,
peakBrightness)` that supplies the mutable global as the explicit
parameter. -/
noncomputable def part011_HLG_signalToNits (g : Globals) (signal : ℝ) : ℝ :=
  hlgjs_signalToNits signal g.peakBrightness

/-- From src/unnamed/part_011 (lines 916-917): the app-level wrapper for
`nitsToSignal`, supplying the mutable global as the explicit parameter. -/
noncomputable def part011_HLG_nitsToSignal (g : Globals) (nits : ℝ) : ℝ :=
  hlgjs_nitsToSignal nits g.peakBrightness

/-- The externally supplied raster: width, height and the flat RGBA byte
array (`ImageData` in the browser). -/
structure ImageDataE where
  width : ℕ
  height : ℕ
  data : List ℕ

/-- The pixel triplets read by the histogram loop `for (i = 0; i < data.length;
i += 4)`: bytes i, i+1, i+2 of each 4-byte RGBA group. -/
def pixelTriplets : List ℕ → List (ℕ × ℕ × ℕ)
  | r :: g :: b :: _ :: rest => (r, g, b) :: pixelTriplets rest
  | _ => []

/-- Rescaling of an 8-bit channel value to [0,1]: `data[i] / 255`. -/
noncomputable def srgb01 (n : ℕ) : ℝ := (n : ℝ) / 255

/-- BT.709 luminance `0.2126*r + 0.7152*g + 0.0722*b` from src/script.js
`calculateHistogram`. -/
noncomputable def luminance709 (r g b : ℝ) : ℝ :=
  0.2126 * r + 0.7152 * g + 0.0722 * b

/-- Bin assignment `Math.min(Math.floor(v * bins), bins - 1)` with bins = 100
from src/script.js `calculateHistogram`. -/
noncomputable def binIndex (v : ℝ) : ℤ := min ⌊v * 100⌋ 99

/-- Linear red value of a pixel: `TransferFunctions.sRGB.decode(data[i]/255)`. -/
noncomputable def linR (p : ℕ × ℕ × ℕ) : ℝ := sRGB_decode (srgb01 p.1)

/-- Linear green value of a pixel. -/
noncomputable def linG (p : ℕ × ℕ × ℕ) : ℝ := sRGB_decode (srgb01 p.2.1)

/-- Linear blue value of a pixel. -/
noncomputable def linB (p : ℕ × ℕ × ℕ) : ℝ := sRGB_decode (srgb01 p.2.2)

/-- Linear luminance of a pixel, BT.709-weighted. -/
noncomputable def linLum (p : ℕ × ℕ × ℕ) : ℝ :=
  luminance709 (linR p) (linG p) (linB p)

/-- The four integer count arrays of src/script.js `calculateHistogram`,
modelled as functions from the (integer) bin index to the count. -/
structure HistCounts where
  histogramR : ℤ → ℕ
  histogramG : ℤ → ℕ
  histogramB : ℤ → ℕ
  histogramLuminance : ℤ → ℕ

/-- The increment `histogram[bin]++`. -/
def bump (h : ℤ → ℕ) (k : ℤ) : ℤ → ℕ := fun j => if j = k then h j + 1 else h j

/-- One iteration of the pixel loop of src/script.js `calculateHistogram`. -/
noncomputable def histStep (h : HistCounts) (p : ℕ × ℕ × ℕ) : HistCounts :=
  { histogramR := bump h.histogramR (binIndex (linR p))
    histogramG := bump h.histogramG (binIndex (linG p))
    histogramB := bump h.histogramB (binIndex (linB p))
    histogramLuminance := bump h.histogramLuminance (binIndex (linLum p)) }

/-- The whole pixel loop, processing the triplets in order. -/
noncomputable def histAccum : List (ℕ × ℕ × ℕ) → HistCounts → HistCounts
  | [], h => h
  | p :: ps, h => histAccum ps (histStep h p)

/-- The `new Array(bins).fill(0)` initial state. -/
def histZero : HistCounts :=
  { histogramR := fun _ => 0
    histogramG := fun _ => 0
    histogramB := fun _ => 0
    histogramLuminance := fun _ => 0 }

/-- The normalization `(count / totalPixels) * 100` of one bin.  When
`totalPixels = 0` JavaScript computes `0/0 = NaN`; the embedding returns
`none` for that case and `some` of the percentage otherwise. -/
noncomputable def normalizeBin (count totalPixels : ℕ) : Option ℝ :=
  if totalPixels = 0 then none
  else some ((count : ℝ) / (totalPixels : ℝ) * 100)

/-- The record returned by src/script.js `calculateHistogram`. -/
structure HistogramResult where
  r : List (Option ℝ)
  g : List (Option ℝ)
  b : List (Option ℝ)
  luminance : List (Option ℝ)
  bins : ℕ
  binWidth : ℝ

/-- From src/script.js (and identically src/unnamed/part_011),
`calculateHistogram(imageData)`: decode every pixel to linear light, bin the
three channels and the BT.709 luminance into 100 bins, and normalize each
count to a percentage of `width * height`. -/
noncomputable def calculateHistogram (imageData : ImageDataE) : HistogramResult :=
  let bins : ℕ := 100
  let totalPixels := imageData.width * imageData.height
  let counts := histAccum (pixelTriplets imageData.data) histZero
  { r := (List.range bins).map fun j : ℕ =>
      normalizeBin (counts.histogramR (j : ℤ)) totalPixels
    g := (List.range bins).map fun j : ℕ =>
      normalizeBin (counts.histogramG (j : ℤ)) totalPixels
    b := (List.range bins).map fun j : ℕ =>
      normalizeBin (counts.histogramB (j : ℤ)) totalPixels
    luminance := (List.range bins).map fun j : ℕ =>
      normalizeBin (counts.histogramLuminance (j : ℤ)) totalPixels
    bins := bins
    binWidth := 1 / 100 }

/-- Bin assignment as the specification words it: 100 equal-width bins over
[0,1] with the top bin inclusive, so any value at or above 1 falls in bin 99. -/
noncomputable def specBin (v : ℝ) : ℤ := if 1 ≤ v then 99 else ⌊v * 100⌋

/-- One normalized channel sequence as the specification words it: for each of
the 100 bins, the number of values falling in that bin as a percentage of the
total pixel count. -/
noncomputable def specChannelHist (vals : List ℝ) (total : ℕ) : List (Option ℝ) :=
  (List.range 100).map fun j : ℕ =>
    some (((vals.map specBin).count (j : ℤ) : ℝ) / (total : ℝ) * 100)

/-- The 2×2 test raster with encoded pixels (0,0,0), (255,255,255),
(128,128,128), (64,64,64), alpha 255. -/
def raster2x2 : ImageDataE :=
  { width := 2
    height := 2
    data := [0, 0, 0, 255, 255, 255, 255, 255, 128, 128, 128, 255, 64, 64, 64, 255] }

/-- Total of a normalized bin sequence, reading a NaN entry as 0. -/
noncomputable def sumOpt (l : List (Option ℝ)) : ℝ := (l.map fun o => o.getD 0).sum

/-!  Helper lemmas: real powers with rational exponent m/n are bracketed by
rational numbers through the equivalent integer-power comparisons. -/

lemma rpow_natDiv_pow (v : ℝ) (hv : 0 ≤ v) (m n : ℕ) (hn : n ≠ 0) :
    (v ^ ((m : ℝ) / (n : ℝ))) ^ n = v ^ m := by
  rw [← Real.rpow_natCast (v ^ ((m : ℝ) / (n : ℝ))) n, ← Real.rpow_mul hv,
    div_mul_cancel₀ _ (by exact_mod_cast hn : ((n : ℝ) ≠ 0)), Real.rpow_natCast]

lemma rpow_frac_le_of_pow_le {v q : ℝ} (hv : 0 ≤ v) (hq : 0 ≤ q) {m n : ℕ}
    (hn : n ≠ 0) (h : v ^ m ≤ q ^ n) : v ^ ((m : ℝ) / (n : ℝ)) ≤ q := by
  refine le_of_pow_le_pow_left₀ hn hq ?_
  rw [rpow_natDiv_pow v hv m n hn]
  exact h

lemma le_rpow_frac_of_pow_le {v q : ℝ} (hv : 0 ≤ v) {m n : ℕ}
    (hn : n ≠ 0) (h : q ^ n ≤ v ^ m) : q ≤ v ^ ((m : ℝ) / (n : ℝ)) := by
  refine le_of_pow_le_pow_left₀ hn (Real.rpow_nonneg hv _) ?_
  rw [rpow_natDiv_pow v hv m n hn]
  exact h

lemma rpow_frac_lt_of_pow_lt {v q : ℝ} (hv : 0 ≤ v) (hq : 0 ≤ q) {m n : ℕ}
    (hn : n ≠ 0) (h : v ^ m < q ^ n) : v ^ ((m : ℝ) / (n : ℝ)) < q := by
  refine lt_of_pow_lt_pow_left₀ n hq ?_
  rw [rpow_natDiv_pow v hv m n hn]
  exact h

lemma lt_rpow_frac_of_pow_lt {v q : ℝ} (hv : 0 ≤ v) {m n : ℕ}
    (hn : n ≠ 0) (h : q ^ n < v ^ m) : q < v ^ ((m : ℝ) / (n : ℝ)) := by
  refine lt_of_pow_lt_pow_left₀ n (Real.rpow_nonneg hv _) ?_
  rw [rpow_natDiv_pow v hv m n hn]
  exact h

/-- Lower rational bound on the sRGB gamma-arm power at the branch
threshold 0.0031308. -/
lemma srgb_threshold_rpow_lo : (0.090473845 : ℝ) ≤ (0.0031308 : ℝ) ^ ((1 : ℝ) / 2.4) := by
  have h : ((1 : ℝ) / 2.4) = ((5 : ℕ) : ℝ) / ((12 : ℕ) : ℝ) := by norm_num
  rw [h]
  exact le_rpow_frac_of_pow_le (by norm_num) (by norm_num) (by norm_num)

/-- Upper rational bound on the sRGB gamma-arm power at the branch
threshold 0.0031308. -/
lemma srgb_threshold_rpow_hi : (0.0031308 : ℝ) ^ ((1 : ℝ) / 2.4) ≤ (0.090473846 : ℝ) := by
  have h : ((1 : ℝ) / 2.4) = ((5 : ℕ) : ℝ) / ((12 : ℕ) : ℝ) := by norm_num
  rw [h]
  exact rpow_frac_le_of_pow_le (by norm_num) (by norm_num) (by norm_num) (by norm_num)

/-- The hard-coded HLG constants satisfy a*log(1 - b) + c ≥ 0.5: the rounded
c = 0.55991073 exceeds the exact 0.5 - a*log(4a) by about 4.7e-10, so the
logarithmic arm of the OETF stays at or above 0.5 on its whole branch. -/
lemma hlg_log_arm_ge_half : (0.5 : ℝ) ≤ 0.17883277 * Real.log 0.71533108 + 0.55991073 := by
  set s : ℝ := 0.05991073 / 0.17883277 with hs_def
  have hs0 : (0 : ℝ) ≤ s := by rw [hs_def]; positivity
  have hsum := Real.sum_le_exp_of_nonneg hs0 10
  have hval : (1.39795408 : ℝ) ≤ ∑ i ∈ Finset.range 10, s ^ i / (Nat.factorial i : ℝ) := by
    simp only [Finset.sum_range_succ, Finset.sum_range_zero, Nat.factorial]
    rw [hs_def]
    norm_num
  have hexp : (1.39795408 : ℝ) ≤ Real.exp s := le_trans hval hsum
  have hinv : Real.exp (-s) ≤ 0.71533108 := by
    rw [Real.exp_neg]
    rw [inv_le (Real.exp_pos s) (by norm_num)]
    calc (0.71533108 : ℝ)⁻¹ ≤ 1.39795408 := by norm_num
    _ ≤ Real.exp s := hexp
  have hlog : -s ≤ Real.log 0.71533108 := by
    have h := Real.log_le_log (Real.exp_pos (-s)) hinv
    rwa [Real.log_exp] at h
  have h2 : 0.17883277 * -s ≤ 0.17883277 * Real.log 0.71533108 :=
    mul_le_mul_of_nonneg_left hlog (by norm_num)
  have h3 : (0.17883277 : ℝ) * -s = -0.05991073 := by
    rw [hs_def]; field_simp; ring
  linarith

/-- On the logarithmic branch (inputs above 1/12) the HLG OETF output is
strictly above 0.5. -/
lemma hlg_encode_gt_half {E : ℝ} (h : 1 / 12 < E) : 0.5 < HLG_encode E := by
  rw [HLG_encode]
  rw [if_neg (by linarith), if_neg (not_le.mpr h)]
  have harg : (0.71533108 : ℝ) < 12 * E - 0.28466892 := by linarith
  have hlt : Real.log 0.71533108 < Real.log (12 * E - 0.28466892) :=
    Real.log_lt_log (by norm_num) harg
  have := hlg_log_arm_ge_half
  nlinarith

/-- The HLG OETF never returns a negative signal. -/
lemma hlg_encode_nonneg (x : ℝ) : 0 ≤ HLG_encode x := by
  rw [HLG_encode]
  split_ifs with h1 h2
  · exact le_refl 0
  · exact Real.sqrt_nonneg _
  · have := hlg_encode_gt_half (E := x) (by push_neg at h2; exact h2)
    rw [HLG_encode, if_neg h1, if_neg (by push_neg at h2; exact not_le.mpr h2)] at this
    linarith

/-- Monotonicity of the PQ rational curve t ↦ (c1 + c2 t)/(1 + c3 t) on
nonnegative inputs, from c2 - c1*c3 > 0. -/
lemma pq_curve_mono {s t : ℝ} (hs : 0 ≤ s) (hst : s ≤ t) :
    (0.8359375 + 18.8515625 * s) / (1 + 18.6875 * s)
      ≤ (0.8359375 + 18.8515625 * t) / (1 + 18.6875 * t) := by
  rw [div_le_div_iff (by nlinarith) (by nlinarith)]
  nlinarith

/-- Branch characterization of the sRGB OETF: linear arm. -/
lemma sRGB_encode_linearArm {x : ℝ} (h : x ≤ 0.0031308) :
    sRGB_encode x = 12.92 * x := by
  rw [sRGB_encode, if_pos h]

/-- Branch characterization of the sRGB OETF: gamma arm. -/
lemma sRGB_encode_gammaArm {x : ℝ} (h : 0.0031308 < x) :
    sRGB_encode x = 1.055 * x ^ ((1 : ℝ) / 2.4) - 0.055 := by
  rw [sRGB_encode, if_neg (not_le.mpr h)]

/-- Branch characterization of the HLG OETF: square-root arm. -/
lemma HLG_encode_sqrtArm {x : ℝ} (h0 : ¬ x ≤ 0) (h12 : x ≤ 1 / 12) :
    HLG_encode x = Real.sqrt (3 * x) := by
  rw [HLG_encode, if_neg h0, if_pos h12]

/-- Branch characterization of the HLG OETF: logarithmic arm. -/
lemma HLG_encode_logArm {x : ℝ} (h : 1 / 12 < x) :
    HLG_encode x = 0.17883277 * Real.log (12 * x - 0.28466892) + 0.55991073 := by
  rw [HLG_encode, if_neg (by linarith), if_neg (not_le.mpr h)]

/-- The square root of 1/4 is 1/2 (used at the HLG branch boundary). -/
lemma sqrt_quarter : Real.sqrt (1 / 4) = 1 / 2 := by
  rw [show (1 / 4 : ℝ) = (1 / 2) ^ 2 by norm_num, Real.sqrt_sq (by norm_num)]

/-- C10: for negative inputs, sRGB encode and decode propagate through the
linear arm and return negative values, while the HLG pair clamps all inputs
at or below zero to exactly 0. -/
theorem negative_input_handling :
    ∀ x : ℝ,
      (x < 0 →
        sRGB_encode x = 12.92 * x ∧ sRGB_decode x = x / 12.92 ∧
        sRGB_encode x < 0 ∧ sRGB_decode x < 0) ∧
      (x ≤ 0 → HLG_encode x = 0 ∧ HLG_decode x = 0) := by
  intro x
  constructor
  · intro hx
    have he : sRGB_encode x = 12.92 * x := by
      rw [sRGB_encode, if_pos (by linarith)]
    have hd : sRGB_decode x = x / 12.92 := by
      rw [sRGB_decode, if_pos (by linarith)]
    refine ⟨he, hd, ?_, ?_⟩
    · rw [he]; nlinarith
    · rw [hd]; exact div_neg_of_neg_of_pos hx (by norm_num)
  · intro hx
    constructor
    · rw [HLG_encode, if_pos hx]
    · rw [HLG_decode, if_pos hx]

/-- C10 witness at the concrete input -1. -/
theorem negative_input_handling_witness :
    (sRGB_encode (-1) = 12.92 * (-1) ∧ sRGB_decode (-1) = (-1) / 12.92 ∧
      sRGB_encode (-1) < 0 ∧ sRGB_decode (-1) < 0) ∧
    (HLG_encode (-1) = 0 ∧ HLG_decode (-1) = 0) :=
  ⟨(negative_input_handling (-1)).1 (by norm_num),
   (negative_input_handling (-1)).2 (by norm_num)⟩

/-- C6 counterexample: at the branch threshold 0.0031308 the two arms of
sRGB.encode do not agree to machine precision — the gap exceeds 1e-9, far
above the 2^-52 relative precision of an IEEE double. -/
theorem srgb_branch_gap_large :
    1e-9 < |sRGB_encodeGammaSegment 0.0031308 - sRGB_encodeLinearSegment 0.0031308| := by
  have hy := srgb_threshold_rpow_hi
  have hmul := mul_le_mul_of_nonneg_left hy (by norm_num : (0 : ℝ) ≤ 1.055)
  have hg : sRGB_encodeGammaSegment 0.0031308 ≤ 1.055 * 0.090473846 - 0.055 := by
    rw [sRGB_encodeGammaSegment]; linarith
  have hl : sRGB_encodeLinearSegment 0.0031308 = 0.040449936 := by
    rw [sRGB_encodeLinearSegment]; norm_num
  rw [abs_sub_comm]
  rw [abs_of_pos (by rw [hl]; linarith)]
  rw [hl]
  linarith

/-- C6 amended: at the threshold 0.0031308 the linear arm exceeds the gamma
arm by between 2e-8 and 3e-8 (so the branches agree only to about 3e-8, not
to machine precision), and sRGB.encode at the threshold takes the linear arm,
returning exactly 0.040449936. -/
theorem srgb_branch_gap_bounds :
    2e-8 < sRGB_encodeLinearSegment 0.0031308 - sRGB_encodeGammaSegment 0.0031308 ∧
    sRGB_encodeLinearSegment 0.0031308 - sRGB_encodeGammaSegment 0.0031308 < 3e-8 ∧
    sRGB_encode 0.0031308 = 0.040449936 := by
  have hyhi := srgb_threshold_rpow_hi
  have hylo := srgb_threshold_rpow_lo
  have hm1 := mul_le_mul_of_nonneg_left hyhi (by norm_num : (0 : ℝ) ≤ 1.055)
  have hm2 := mul_le_mul_of_nonneg_left hylo (by norm_num : (0 : ℝ) ≤ 1.055)
  have hl : sRGB_encodeLinearSegment 0.0031308 = 0.040449936 := by
    rw [sRGB_encodeLinearSegment]; norm_num
  refine ⟨?_, ?_, ?_⟩
  · rw [hl, sRGB_encodeGammaSegment]; linarith
  · rw [hl, sRGB_encodeGammaSegment]; linarith
  · rw [sRGB_encode_linearArm (by norm_num)]; norm_num

/-- C7 counterexample: sRGB.encode is not monotone on its valid domain — at
the branch threshold the encoded value drops: encode(0.003130801) is
strictly below encode(0.0031308). -/
theorem srgb_encode_monotonicity_failure :
    sRGB_encode 0.003130801 < sRGB_encode 0.0031308 := by
  have h1 : sRGB_encode 0.0031308 = 0.040449936 := by
    rw [sRGB_encode_linearArm (by norm_num)]; norm_num
  have h2 := sRGB_encode_gammaArm (x := 0.003130801) (by norm_num)
  have hb : (0.003130801 : ℝ) ^ ((1 : ℝ) / 2.4) < 0.095449936 / 1.055 := by
    have h : ((1 : ℝ) / 2.4) = ((5 : ℕ) : ℝ) / ((12 : ℕ) : ℝ) := by norm_num
    rw [h]
    exact rpow_frac_lt_of_pow_lt (by norm_num) (by norm_num) (by norm_num) (by norm_num)
  have hmul := mul_lt_mul_of_pos_left hb (by norm_num : (0 : ℝ) < 1.055)
  rw [h1, h2]
  have : (1.055 : ℝ) * (0.095449936 / 1.055) = 0.095449936 := by norm_num
  linarith

/-- C7 amended: PQ.encode and HLG.encode are monotone non-decreasing on all
of ℝ; sRGB.encode is monotone on each arm of its branch (on inputs up to the
threshold 0.0031308, and on inputs above it), and globally it is monotone
only up to an additive slack of 3e-8, the branch-mismatch gap at the
threshold. -/
theorem encode_monotonicity :
    (∀ x y : ℝ, x ≤ y → PQ_encode x ≤ PQ_encode y) ∧
    (∀ x y : ℝ, x ≤ y → HLG_encode x ≤ HLG_encode y) ∧
    (∀ x y : ℝ, x ≤ y → y ≤ 0.0031308 → sRGB_encode x ≤ sRGB_encode y) ∧
    (∀ x y : ℝ, 0.0031308 < x → x ≤ y → sRGB_encode x ≤ sRGB_encode y) ∧
    (∀ x y : ℝ, x ≤ y → sRGB_encode x ≤ sRGB_encode y + 3e-8) := by
  have hgamma : ∀ x y : ℝ, 0.0031308 < x → x ≤ y →
      1.055 * x ^ ((1 : ℝ) / 2.4) - 0.055 ≤ 1.055 * y ^ ((1 : ℝ) / 2.4) - 0.055 := by
    intro x y hx hxy
    have hp : x ^ ((1 : ℝ) / 2.4) ≤ y ^ ((1 : ℝ) / 2.4) :=
      Real.rpow_le_rpow (by linarith) hxy (by norm_num)
    have := mul_le_mul_of_nonneg_left hp (by norm_num : (0 : ℝ) ≤ 1.055)
    linarith
  refine ⟨?_, ?_, ?_, ?_, ?_⟩
  · intro x y hxy
    simp only [PQ_encode]
    have hs0 : (0 : ℝ) ≤ max 0 (min 1 x) := le_max_left _ _
    have hst : max (0 : ℝ) (min 1 x) ≤ max 0 (min 1 y) :=
      max_le_max le_rfl (min_le_min le_rfl hxy)
    have hpow : (max (0 : ℝ) (min 1 x)) ^ (0.1593017578125 : ℝ)
        ≤ (max (0 : ℝ) (min 1 y)) ^ (0.1593017578125 : ℝ) :=
      Real.rpow_le_rpow hs0 hst (by norm_num)
    have hp0 : (0 : ℝ) ≤ (max (0 : ℝ) (min 1 x)) ^ (0.1593017578125 : ℝ) :=
      Real.rpow_nonneg hs0 _
    refine Real.rpow_le_rpow ?_ (pq_curve_mono hp0 hpow) (by norm_num)
    exact div_nonneg (by nlinarith) (by nlinarith)
  · intro x y hxy
    by_cases hx0 : x ≤ 0
    · rw [HLG_encode, if_pos hx0]
      exact hlg_encode_nonneg y
    · by_cases hx12 : x ≤ 1 / 12
      · by_cases hy12 : y ≤ 1 / 12
        · rw [HLG_encode_sqrtArm hx0 hx12, HLG_encode_sqrtArm (by push_neg at hx0 ⊢; linarith) hy12]
          exact Real.sqrt_le_sqrt (by linarith)
        · push_neg at hy12
          have h1 : HLG_encode x ≤ 0.5 := by
            rw [HLG_encode_sqrtArm hx0 hx12]
            have hs := Real.sqrt_le_sqrt (by linarith : 3 * x ≤ 1 / 4)
            rw [sqrt_quarter] at hs
            linarith
          have h2 := hlg_encode_gt_half hy12
          linarith
      · push_neg at hx0 hx12
        have hy12 : 1 / 12 < y := lt_of_lt_of_le hx12 hxy
        rw [HLG_encode_logArm hx12, HLG_encode_logArm hy12]
        have hl : Real.log (12 * x - 0.28466892) ≤ Real.log (12 * y - 0.28466892) :=
          Real.log_le_log (by linarith) (by linarith)
        nlinarith
  · intro x y hxy hy
    rw [sRGB_encode_linearArm (le_trans hxy hy), sRGB_encode_linearArm hy]
    linarith
  · intro x y hx hxy
    rw [sRGB_encode_gammaArm hx, sRGB_encode_gammaArm (lt_of_lt_of_le hx hxy)]
    exact hgamma x y hx hxy
  · intro x y hxy
    by_cases hy : y ≤ 0.0031308
    · rw [sRGB_encode_linearArm (le_trans hxy hy), sRGB_encode_linearArm hy]
      linarith
    · push_neg at hy
      by_cases hx : x ≤ 0.0031308
      · rw [sRGB_encode_linearArm hx, sRGB_encode_gammaArm hy]
        have hyg : (0.0031308 : ℝ) ^ ((1 : ℝ) / 2.4) ≤ y ^ ((1 : ℝ) / 2.4) :=
          Real.rpow_le_rpow (by norm_num) (le_of_lt hy) (by norm_num)
        have h1 := mul_le_mul_of_nonneg_left hyg (by norm_num : (0 : ℝ) ≤ 1.055)
        have h2 := mul_le_mul_of_nonneg_left srgb_threshold_rpow_lo
          (by norm_num : (0 : ℝ) ≤ 1.055)
        linarith
      · push_neg at hx
        have := hgamma x y hx hxy
        rw [sRGB_encode_gammaArm hx, sRGB_encode_gammaArm (lt_of_lt_of_le hx hxy)]
        linarith

/-- C7 amended witness: the monotonicity statements applied at concrete
inputs. -/
theorem encode_monotonicity_witness :
    PQ_encode 0.25 ≤ PQ_encode 1 ∧
    HLG_encode 0.25 ≤ HLG_encode 1 ∧
    sRGB_encode 0.001 ≤ sRGB_encode 0.002 ∧
    sRGB_encode 0.25 ≤ sRGB_encode 1 ∧
    sRGB_encode 0.25 ≤ sRGB_encode 1 + 3e-8 :=
  ⟨encode_monotonicity.1 0.25 1 (by norm_num),
   encode_monotonicity.2.1 0.25 1 (by norm_num),
   encode_monotonicity.2.2.1 0.001 0.002 (by norm_num) (by norm_num),
   encode_monotonicity.2.2.2.1 0.25 1 (by norm_num) (by norm_num),
   encode_monotonicity.2.2.2.2 0.25 1 (by norm_num)⟩

/-- C8: for every input, the denominator c2 - c3*E^(1/m2) computed by
PQ.decode is at least c2 - c3 = 0.1640625 > 0, so the guarded
division-by-zero branch (which would return the sentinel 0) is unreachable
and decode always equals the unguarded formula. -/
theorem pq_decode_denominator_positive :
    ∀ pq : ℝ,
      0.1640625 ≤ libPQ_decodeDenominator pq ∧
      libPQ_decode pq = libPQ_decodeUnguarded pq := by
  intro pq
  have hE0 : (0 : ℝ) ≤ max 0 (min 1 pq) := le_max_left _ _
  have hE1 : max (0 : ℝ) (min 1 pq) ≤ 1 := max_le (by norm_num) (min_le_left _ _)
  have hEm : (max (0 : ℝ) (min 1 pq)) ^ ((1 : ℝ) / 78.84375) ≤ 1 :=
    Real.rpow_le_one hE0 hE1 (by norm_num)
  have hden : (0.1640625 : ℝ)
      ≤ 18.8515625 - 18.6875 * ((max (0 : ℝ) (min 1 pq)) ^ ((1 : ℝ) / 78.84375)) := by
    nlinarith
  constructor
  · rw [libPQ_decodeDenominator]
    exact hden
  · simp only [libPQ_decode, libPQ_decodeUnguarded]
    rw [if_neg]
    push_neg
    linarith

/-- C9 counterexample: the transfer functions of part_009 are not pure
functions of their explicit argument — both HLG.encode and HLG.decode read
the mutable global peakBrightness, and at the same inputs (1/1200 for
encode, 0.4 for decode) two states that differ only in that global give
different outputs. -/
theorem part009_hlg_state_leak :
    (part009_HLG_encode ⟨"combined", "eotf", 100⟩ (1 / 1200) = 1 / 20 ∧
      part009_HLG_encode ⟨"combined", "eotf", 1000⟩ (1 / 1200)
        ≠ part009_HLG_encode ⟨"combined", "eotf", 100⟩ (1 / 1200)) ∧
    (part009_HLG_decode ⟨"combined", "eotf", 100⟩ 0.4 = 4 / 75 ∧
      part009_HLG_decode ⟨"combined", "eotf", 1000⟩ 0.4
        ≠ part009_HLG_decode ⟨"combined", "eotf", 100⟩ 0.4) := by
  have hgen : ∀ (g : Globals) (v : ℝ), g.peakBrightness = v → (0 : ℝ) < v →
      (1 : ℝ) / 1200 * 100 / v ≤ 1 / 12 →
      part009_HLG_encode g (1 / 1200) = Real.sqrt (3 * (1 / 1200 * 100 / v)) := by
    intro g v hg hv hle
    simp only [part009_HLG_encode, hg]
    rw [if_neg (by norm_num), if_pos hle]
    rw [show ((0.5 : ℝ)) = 1 / (2 : ℝ) by norm_num, ← Real.sqrt_eq_rpow]
    rw [← Real.sqrt_mul (by norm_num : (0 : ℝ) ≤ 3)]
  have h100 : part009_HLG_encode ⟨"combined", "eotf", 100⟩ (1 / 1200) = 1 / 20 := by
    rw [hgen _ 100 rfl (by norm_num) (by norm_num)]
    rw [show (3 * (1 / 1200 * 100 / 100) : ℝ) = (1 / 20) ^ 2 by norm_num]
    exact Real.sqrt_sq (by norm_num)
  have h1000 : part009_HLG_encode ⟨"combined", "eotf", 1000⟩ (1 / 1200)
      = Real.sqrt (1 / 4000) := by
    rw [hgen _ 1000 rfl (by norm_num) (by norm_num)]
    norm_num
  have hdec : ∀ (g : Globals) (v : ℝ), g.peakBrightness = v →
      part009_HLG_decode g 0.4 = 0.4 ^ 2 / 3 * v / 100 := by
    intro g v hg
    simp only [part009_HLG_decode, hg]
    rw [if_neg (by norm_num), if_pos (by norm_num)]
  refine ⟨⟨h100, ?_⟩, ⟨?_, ?_⟩⟩
  · rw [h100, h1000]
    intro heq
    have hsq : ((1 : ℝ) / 4000) = (1 / 20) ^ 2 := by
      rw [← Real.sq_sqrt (by norm_num : (0 : ℝ) ≤ (1 : ℝ) / 4000), heq]
    norm_num at hsq
  · rw [hdec _ 100 rfl]
    norm_num
  · rw [hdec _ 1000 rfl, hdec _ 100 rfl]
    norm_num

/-- C9 amended: every part_009 transfer-function operation except the HLG
pair is a pure function of its explicit argument — the sRGB and PQ encoders
and decoders give identical results in any two ambient states.  The part_009
HLG encoder and decoder, and the part_011 signalToNits/nitsToSignal wrappers,
read exactly the mutable global peakBrightness: states agreeing on it give
identical results.  The underlying hlg.js signalToNits/nitsToSignal take
peak brightness as an explicit parameter, and the wrappers equal those pure
functions applied at the current global's value. -/
theorem part009_purity_modulo_peak :
    (∀ (g1 g2 : Globals) (x : ℝ),
      part009_sRGB_encode g1 x = part009_sRGB_encode g2 x ∧
      part009_sRGB_decode g1 x = part009_sRGB_decode g2 x ∧
      part009_PQ_encode g1 x = part009_PQ_encode g2 x ∧
      part009_PQ_decode g1 x = part009_PQ_decode g2 x) ∧
    (∀ (g1 g2 : Globals) (x : ℝ), g1.peakBrightness = g2.peakBrightness →
      part009_HLG_encode g1 x = part009_HLG_encode g2 x ∧
      part009_HLG_decode g1 x = part009_HLG_decode g2 x ∧
      part011_HLG_signalToNits g1 x = part011_HLG_signalToNits g2 x ∧
      part011_HLG_nitsToSignal g1 x = part011_HLG_nitsToSignal g2 x) ∧
    (∀ (g : Globals) (x : ℝ),
      part011_HLG_signalToNits g x = hlgjs_signalToNits x g.peakBrightness ∧
      part011_HLG_nitsToSignal g x = hlgjs_nitsToSignal x g.peakBrightness) := by
  refine ⟨fun g1 g2 x => ⟨rfl, rfl, rfl, rfl⟩, fun g1 g2 x h => ?_, fun g x => ⟨rfl, rfl⟩⟩
  refine ⟨?_, ?_, ?_, ?_⟩
  · rw [part009_HLG_encode, part009_HLG_encode, h]
  · rw [part009_HLG_decode, part009_HLG_decode, h]
  · rw [part011_HLG_signalToNits, part011_HLG_signalToNits, h]
  · rw [part011_HLG_nitsToSignal, part011_HLG_nitsToSignal, h]

/-- C9 amended witness: two states differing in everything except
peakBrightness give the same HLG encode, decode, signalToNits and
nitsToSignal results. -/
theorem part009_purity_modulo_peak_witness :
    part009_HLG_encode ⟨"separate", "oetf", 500⟩ 0.3
      = part009_HLG_encode ⟨"combined", "eotf", 500⟩ 0.3 ∧
    part009_HLG_decode ⟨"separate", "oetf", 500⟩ 0.3
      = part009_HLG_decode ⟨"combined", "eotf", 500⟩ 0.3 ∧
    part011_HLG_signalToNits ⟨"separate", "oetf", 500⟩ 0.3
      = part011_HLG_signalToNits ⟨"combined", "eotf", 500⟩ 0.3 ∧
    part011_HLG_nitsToSignal ⟨"separate", "oetf", 500⟩ 0.3
      = part011_HLG_nitsToSignal ⟨"combined", "eotf", 500⟩ 0.3 :=
  part009_purity_modulo_peak.2.1 ⟨"separate", "oetf", 500⟩ ⟨"combined", "eotf", 500⟩ 0.3 rfl

/-- C1: the HLG OETF/inverse-OETF pair round-trips every scene-linear input
in [0,12] (in fact exactly, so certainly within 1e-6), and the normalization
is the BT.2100 one: encode(1/12) = 0.5 exactly. -/
theorem hlg_roundtrip :
    (∀ E : ℝ, 0 ≤ E → E ≤ 12 → |HLG_decode (HLG_encode E) - E| ≤ 1e-6) ∧
    HLG_encode (1 / 12) = 0.5 := by
  have henc112 : HLG_encode (1 / 12) = 0.5 := by
    rw [HLG_encode_sqrtArm (by norm_num) (by norm_num)]
    rw [show (3 * (1 / 12 : ℝ)) = 1 / 4 by norm_num, sqrt_quarter]
    norm_num
  refine ⟨?_, henc112⟩
  intro E h0 _h12
  have hexact : HLG_decode (HLG_encode E) = E := by
    rcases eq_or_lt_of_le h0 with h | hpos
    · rw [← h]
      rw [show HLG_encode 0 = 0 by rw [HLG_encode, if_pos le_rfl]]
      rw [HLG_decode, if_pos le_rfl]
    · by_cases h12 : E ≤ 1 / 12
      · rw [HLG_encode_sqrtArm (not_le.mpr hpos) h12]
        have hs0 : 0 < Real.sqrt (3 * E) := Real.sqrt_pos.mpr (by linarith)
        have hshalf : Real.sqrt (3 * E) ≤ 0.5 := by
          have := Real.sqrt_le_sqrt (by linarith : 3 * E ≤ 1 / 4)
          rw [sqrt_quarter] at this
          linarith
        rw [HLG_decode, if_neg (not_le.mpr hs0), if_pos hshalf]
        rw [Real.sq_sqrt (by linarith : (0 : ℝ) ≤ 3 * E)]
        ring
      · push_neg at h12
        have hgt := hlg_encode_gt_half h12
        rw [HLG_encode_logArm h12] at hgt ⊢
        rw [HLG_decode, if_neg (by push_neg; linarith), if_neg (by push_neg; linarith)]
        rw [add_sub_cancel_right, mul_div_cancel_left₀ _ (by norm_num : (0.17883277 : ℝ) ≠ 0)]
        rw [Real.exp_log (by linarith : (0 : ℝ) < 12 * E - 0.28466892)]
        ring
  rw [hexact]
  simp
  norm_num

/-- C1 witness: the round trip at the concrete scene-linear value 5. -/
theorem hlg_roundtrip_witness :
    |HLG_decode (HLG_encode 5) - 5| ≤ 1e-6 ∧ HLG_encode (1 / 12) = 0.5 :=
  ⟨hlg_roundtrip.1 5 (by norm_num) (by norm_num), hlg_roundtrip.2⟩

/-- Rational bracketing of 0.01 ^ m1 with the PQ constant
m1 = 0.1593017578125 = 1305/8192. -/
lemma pq_Ym1_lo : (0.48017161 : ℝ) ≤ (0.01 : ℝ) ^ (0.1593017578125 : ℝ) := by
  have hm1 : (0.1593017578125 : ℝ) = ((1305 : ℕ) : ℝ) / ((8192 : ℕ) : ℝ) := by norm_num
  rw [hm1]
  exact le_rpow_frac_of_pow_le (by norm_num) (by norm_num) (by norm_num)

/-- Upper rational bracketing of 0.01 ^ m1. -/
lemma pq_Ym1_hi : (0.01 : ℝ) ^ (0.1593017578125 : ℝ) ≤ (0.48017162 : ℝ) := by
  have hm1 : (0.1593017578125 : ℝ) = ((1305 : ℕ) : ℝ) / ((8192 : ℕ) : ℝ) := by norm_num
  rw [hm1]
  exact rpow_frac_le_of_pow_le (by norm_num) (by norm_num) (by norm_num) (by norm_num)

/-- For any u bracketed by the bounds on 0.01^m1, the full PQ curve value is
within 1e-6 of 0.508078. -/
lemma pq_curve_value_near (u : ℝ) (h1 : 0.48017161 ≤ u) (h2 : u ≤ 0.48017162) :
    |((0.8359375 + 18.8515625 * u) / (1 + 18.6875 * u)) ^ (78.84375 : ℝ) - 0.508078|
      ≤ 1e-6 := by
  have hu0 : (0 : ℝ) ≤ u := by linarith
  have hRlo : (0.99144865 : ℝ) ≤ (0.8359375 + 18.8515625 * u) / (1 + 18.6875 * u) := by
    rw [le_div_iff (by nlinarith)]
    nlinarith
  have hRhi : (0.8359375 + 18.8515625 * u) / (1 + 18.6875 * u) ≤ 0.99144866 := by
    rw [div_le_iff (by nlinarith)]
    nlinarith
  have hm2 : (78.84375 : ℝ) = ((2523 : ℕ) : ℝ) / ((32 : ℕ) : ℝ) := by norm_num
  have hlow : (0.508077 : ℝ)
      ≤ ((0.8359375 + 18.8515625 * u) / (1 + 18.6875 * u)) ^ (78.84375 : ℝ) := by
    calc (0.508077 : ℝ) ≤ (0.99144865 : ℝ) ^ (78.84375 : ℝ) := by
          rw [hm2]
          exact le_rpow_frac_of_pow_le (by norm_num) (by norm_num) (by norm_num)
    _ ≤ _ := Real.rpow_le_rpow (by norm_num) hRlo (by norm_num)
  have hhigh : ((0.8359375 + 18.8515625 * u) / (1 + 18.6875 * u)) ^ (78.84375 : ℝ)
      ≤ 0.508079 := by
    calc ((0.8359375 + 18.8515625 * u) / (1 + 18.6875 * u)) ^ (78.84375 : ℝ)
        ≤ (0.99144866 : ℝ) ^ (78.84375 : ℝ) :=
          Real.rpow_le_rpow (div_nonneg (by nlinarith) (by nlinarith)) hRhi (by norm_num)
    _ ≤ 0.508079 := by
          rw [hm2]
          exact rpow_frac_le_of_pow_le (by norm_num) (by norm_num) (by norm_num) (by norm_num)
  rw [abs_le]
  constructor <;> linarith

/-- C2: the histogram.ts PQ encoder performs the relative-to-absolute scale
conversion internally: encode(1.0) (i.e. 100 nits) is within 1e-6 of
0.508078, and encode(100.0) (i.e. 10,000 nits) is exactly 1. -/
theorem libpq_encode_anchors :
    |libPQ_encode 1 - 0.508078| ≤ 1e-6 ∧ libPQ_encode 100 = 1 := by
  constructor
  · have h := pq_curve_value_near ((0.01 : ℝ) ^ (0.1593017578125 : ℝ)) pq_Ym1_lo pq_Ym1_hi
    simp only [libPQ_encode]
    rw [show (max (0 : ℝ) (1 * 100 / 10000)) = 0.01 by norm_num]
    exact h
  · simp only [libPQ_encode]
    rw [show (max (0 : ℝ) (100 * 100 / 10000)) = 1 by norm_num]
    rw [Real.one_rpow]
    rw [show ((0.8359375 + 18.8515625 * (1 : ℝ)) / (1 + 18.6875 * 1)) = 1 by norm_num]
    exact Real.one_rpow _

/-!  Histogram machinery: the fold over the pixel loop equals a per-bin
count, and the source's bin assignment agrees with the specification's
"100 equal-width bins, top bin inclusive" description. -/

/-- The pixel loop updates each channel count independently: after the fold,
a channel's count at bin j is the number of pixels whose channel value lands
in bin j. -/
lemma histAccum_proj (sel : HistCounts → (ℤ → ℕ)) (val : (ℕ × ℕ × ℕ) → ℝ)
    (hsel : ∀ h p, sel (histStep h p) = bump (sel h) (binIndex (val p))) :
    ∀ (ps : List (ℕ × ℕ × ℕ)) (h : HistCounts) (j : ℤ),
      sel (histAccum ps h) j = sel h j + ((ps.map fun p => binIndex (val p)).count j) := by
  intro ps
  induction ps with
  | nil => intro h j; simp [histAccum]
  | cons p ps ih =>
      intro h j
      rw [show histAccum (p :: ps) h = histAccum ps (histStep h p) from rfl]
      rw [ih, hsel]
      simp only [List.map_cons, List.count_cons, bump]
      by_cases hj : j = binIndex (val p)
      · rw [if_pos hj, if_pos (beq_iff_eq.mpr hj.symm)]
        omega
      · rw [if_neg hj, if_neg (fun hc => hj (beq_iff_eq.mp hc).symm)]
        omega

/-- Luminance-channel count after the fold, starting from the zero state. -/
lemma histAccum_lum_count (ps : List (ℕ × ℕ × ℕ)) (j : ℤ) :
    (histAccum ps histZero).histogramLuminance j
      = ((ps.map fun p => binIndex (linLum p)).count j) := by
  rw [histAccum_proj HistCounts.histogramLuminance linLum (fun _ _ => rfl) ps histZero j]
  exact Nat.zero_add _

/-- Red-channel count after the fold, starting from the zero state. -/
lemma histAccum_r_count (ps : List (ℕ × ℕ × ℕ)) (j : ℤ) :
    (histAccum ps histZero).histogramR j
      = ((ps.map fun p => binIndex (linR p)).count j) := by
  rw [histAccum_proj HistCounts.histogramR linR (fun _ _ => rfl) ps histZero j]
  exact Nat.zero_add _

/-- Green-channel count after the fold, starting from the zero state. -/
lemma histAccum_g_count (ps : List (ℕ × ℕ × ℕ)) (j : ℤ) :
    (histAccum ps histZero).histogramG j
      = ((ps.map fun p => binIndex (linG p)).count j) := by
  rw [histAccum_proj HistCounts.histogramG linG (fun _ _ => rfl) ps histZero j]
  exact Nat.zero_add _

/-- Blue-channel count after the fold, starting from the zero state. -/
lemma histAccum_b_count (ps : List (ℕ × ℕ × ℕ)) (j : ℤ) :
    (histAccum ps histZero).histogramB j
      = ((ps.map fun p => binIndex (linB p)).count j) := by
  rw [histAccum_proj HistCounts.histogramB linB (fun _ _ => rfl) ps histZero j]
  exact Nat.zero_add _

/-- The pixel loop visits data.length / 4 pixels. -/
lemma pixelTriplets_length_div : ∀ l : List ℕ, (pixelTriplets l).length = l.length / 4
  | [] => rfl
  | [a] => by
      rw [show pixelTriplets [a] = [] from rfl]
      simp
  | [a, b] => by
      rw [show pixelTriplets [a, b] = [] from rfl]
      simp
  | [a, b, c] => by
      rw [show pixelTriplets [a, b, c] = [] from rfl]
      simp
  | r :: g :: b :: a :: rest => by
      rw [show pixelTriplets (r :: g :: b :: a :: rest) = (r, g, b) :: pixelTriplets rest
        from rfl]
      rw [List.length_cons, pixelTriplets_length_div rest]
      simp only [List.length_cons]
      omega

/-- The source's bin assignment min(floor(100 v), 99) is exactly the
specification's "equal-width bins with inclusive top bin". -/
lemma binIndex_eq_specBin (v : ℝ) : binIndex v = specBin v := by
  rw [binIndex, specBin]
  by_cases h : 1 ≤ v
  · rw [if_pos h]
    have h100 : (100 : ℤ) ≤ ⌊v * 100⌋ := by
      rw [Int.le_floor]
      push_cast
      linarith
    exact min_eq_right (by omega)
  · rw [if_neg h]
    push_neg at h
    have hlt : ⌊v * 100⌋ < 100 := by
      rw [Int.floor_lt]
      push_cast
      linarith
    exact min_eq_left (by omega)

/-- C3: on every well-formed non-empty raster, calculateHistogram returns,
for each channel and for luminance, exactly the specification histogram:
each of the 100 bins holds the number of linearized values (sRGB-decoded
channels, BT.709 luminance) falling in that equal-width bin (top bin
inclusive), as a percentage of width*height, which equals the number of
pixels processed. -/
theorem calculateHistogram_matches_spec (img : ImageDataE)
    (hne : img.width * img.height ≠ 0)
    (hwf : img.data.length = 4 * (img.width * img.height)) :
    (calculateHistogram img).r
      = specChannelHist ((pixelTriplets img.data).map linR) (img.width * img.height) ∧
    (calculateHistogram img).g
      = specChannelHist ((pixelTriplets img.data).map linG) (img.width * img.height) ∧
    (calculateHistogram img).b
      = specChannelHist ((pixelTriplets img.data).map linB) (img.width * img.height) ∧
    (calculateHistogram img).luminance
      = specChannelHist ((pixelTriplets img.data).map linLum) (img.width * img.height) ∧
    (pixelTriplets img.data).length = img.width * img.height ∧
    (calculateHistogram img).bins = 100 ∧
    (calculateHistogram img).binWidth = 1 / 100 := by
  have hlen : (pixelTriplets img.data).length = img.width * img.height := by
    rw [pixelTriplets_length_div, hwf]
    omega
  have hchan : ∀ (sel : HistCounts → (ℤ → ℕ)) (val : (ℕ × ℕ × ℕ) → ℝ),
      (∀ h p, sel (histStep h p) = bump (sel h) (binIndex (val p))) →
      (∀ k : ℤ, sel histZero k = 0) →
      ((List.range 100).map fun j : ℕ =>
        normalizeBin (sel (histAccum (pixelTriplets img.data) histZero) (j : ℤ))
          (img.width * img.height))
      = specChannelHist ((pixelTriplets img.data).map val) (img.width * img.height) := by
    intro sel val hsel hzero
    rw [specChannelHist]
    apply List.map_congr_left
    intro j _
    rw [histAccum_proj sel val hsel, normalizeBin, if_neg hne, hzero, Nat.zero_add]
    rw [List.map_map]
    rw [show (specBin ∘ val) = fun p => binIndex (val p) from
      funext fun p => (binIndex_eq_specBin (val p)).symm]
  refine ⟨?_, ?_, ?_, ?_, hlen, rfl, rfl⟩
  · exact hchan HistCounts.histogramR linR (fun _ _ => rfl) (fun _ => rfl)
  · exact hchan HistCounts.histogramG linG (fun _ _ => rfl) (fun _ => rfl)
  · exact hchan HistCounts.histogramB linB (fun _ _ => rfl) (fun _ => rfl)
  · exact hchan HistCounts.histogramLuminance linLum (fun _ _ => rfl) (fun _ => rfl)

/-- C3 witness: the characterization applied to the concrete 1×1 black
raster. -/
theorem calculateHistogram_matches_spec_witness :
    (calculateHistogram ⟨1, 1, [0, 0, 0, 255]⟩).luminance
      = specChannelHist ((pixelTriplets [0, 0, 0, 255]).map linLum) 1 :=
  (calculateHistogram_matches_spec ⟨1, 1, [0, 0, 0, 255]⟩ (by norm_num) rfl).2.2.2.1

/-- C4: on the zero-pixel raster, calculateHistogram performs no explicit
rejection — every one of the 100 bins of all four sequences is the NaN that
JavaScript produces for (0 / 0) * 100 (modelled as `none`), not an error
result and not a zero-filled histogram. -/
theorem calculateHistogram_empty_is_nan :
    (calculateHistogram ⟨0, 0, []⟩).r = List.replicate 100 none ∧
    (calculateHistogram ⟨0, 0, []⟩).g = List.replicate 100 none ∧
    (calculateHistogram ⟨0, 0, []⟩).b = List.replicate 100 none ∧
    (calculateHistogram ⟨0, 0, []⟩).luminance = List.replicate 100 none := by
  refine ⟨?_, ?_, ?_, ?_⟩ <;> rfl

/-- Bin assignment computed from rational bounds on the value. -/
lemma binIndex_of_bounds {v : ℝ} {z : ℤ} (h99 : z ≤ 99)
    (hlo : (z : ℝ) ≤ v * 100) (hhi : v * 100 < (z : ℝ) + 1) : binIndex v = z := by
  rw [binIndex]
  have hf : ⌊v * 100⌋ = z := by
    rw [Int.floor_eq_iff]
    exact ⟨hlo, hhi⟩
  rw [hf]
  exact min_eq_left h99

/-- A gray pixel's BT.709 luminance is its common decoded channel value,
since the three weights sum to exactly 1. -/
lemma linLum_gray (n : ℕ) : linLum (n, n, n) = sRGB_decode (srgb01 n) := by
  have h : linLum (n, n, n)
      = 0.2126 * sRGB_decode (srgb01 n) + 0.7152 * sRGB_decode (srgb01 n)
        + 0.0722 * sRGB_decode (srgb01 n) := rfl
  rw [h]
  ring

/-- Rational lower bound on the decoded value of byte 64. -/
lemma srgb_decode_64_lo : (0.05 : ℝ) ≤ sRGB_decode (srgb01 64) := by
  rw [srgb01, sRGB_decode, if_neg (by push_cast; norm_num)]
  have h24 : ((2.4 : ℝ)) = ((12 : ℕ) : ℝ) / ((5 : ℕ) : ℝ) := by norm_num
  rw [h24]
  refine le_rpow_frac_of_pow_le (by positivity) (by norm_num) ?_
  push_cast
  norm_num

/-- Rational upper bound on the decoded value of byte 64. -/
lemma srgb_decode_64_hi : sRGB_decode (srgb01 64) < 0.06 := by
  rw [srgb01, sRGB_decode, if_neg (by push_cast; norm_num)]
  have h24 : ((2.4 : ℝ)) = ((12 : ℕ) : ℝ) / ((5 : ℕ) : ℝ) := by norm_num
  rw [h24]
  refine rpow_frac_lt_of_pow_lt (by positivity) (by norm_num) (by norm_num) ?_
  push_cast
  norm_num

/-- Rational lower bound on the decoded value of byte 128. -/
lemma srgb_decode_128_lo : (0.21 : ℝ) ≤ sRGB_decode (srgb01 128) := by
  rw [srgb01, sRGB_decode, if_neg (by push_cast; norm_num)]
  have h24 : ((2.4 : ℝ)) = ((12 : ℕ) : ℝ) / ((5 : ℕ) : ℝ) := by norm_num
  rw [h24]
  refine le_rpow_frac_of_pow_le (by positivity) (by norm_num) ?_
  push_cast
  norm_num

/-- Rational upper bound on the decoded value of byte 128. -/
lemma srgb_decode_128_hi : sRGB_decode (srgb01 128) < 0.22 := by
  rw [srgb01, sRGB_decode, if_neg (by push_cast; norm_num)]
  have h24 : ((2.4 : ℝ)) = ((12 : ℕ) : ℝ) / ((5 : ℕ) : ℝ) := by norm_num
  rw [h24]
  refine rpow_frac_lt_of_pow_lt (by positivity) (by norm_num) (by norm_num) ?_
  push_cast
  norm_num

/-- The black pixel lands in luminance bin 0. -/
lemma binIndex_lum0 : binIndex (linLum (0, 0, 0)) = 0 := by
  rw [linLum_gray]
  rw [show sRGB_decode (srgb01 0) = 0 by
    rw [srgb01, sRGB_decode, if_pos (by norm_num)]
    norm_num]
  rw [binIndex, show ((0 : ℝ) * 100) = 0 by ring, Int.floor_zero]
  decide

/-- The 64-gray pixel lands in luminance bin 5. -/
lemma binIndex_lum64 : binIndex (linLum (64, 64, 64)) = 5 := by
  rw [linLum_gray]
  refine binIndex_of_bounds (by norm_num) ?_ ?_
  · have := srgb_decode_64_lo
    push_cast
    linarith
  · have := srgb_decode_64_hi
    push_cast
    linarith

/-- The 128-gray pixel lands in luminance bin 21. -/
lemma binIndex_lum128 : binIndex (linLum (128, 128, 128)) = 21 := by
  rw [linLum_gray]
  refine binIndex_of_bounds (by norm_num) ?_ ?_
  · have := srgb_decode_128_lo
    push_cast
    linarith
  · have := srgb_decode_128_hi
    push_cast
    linarith

/-- The white pixel lands in luminance bin 99: the decoded value is exactly 1
and the top bin is inclusive. -/
lemma binIndex_lum255 : binIndex (linLum (255, 255, 255)) = 99 := by
  rw [linLum_gray]
  rw [show sRGB_decode (srgb01 255) = 1 by
    rw [srgb01, show (((255 : ℕ) : ℝ) / 255) = 1 by norm_num]
    rw [sRGB_decode, if_neg (by norm_num)]
    rw [show ((1 : ℝ) + 0.055) / 1.055 = 1 by norm_num]
    exact Real.one_rpow _]
  rw [binIndex, show ((1 : ℝ) * 100) = ((100 : ℤ) : ℝ) by norm_num, Int.floor_intCast]
  decide

/-- Bin totals of the 2×2 raster as a list of bin indices. -/
lemma raster2x2_lum_bins :
    ([(0, 0, 0), (255, 255, 255), (128, 128, 128), (64, 64, 64)].map
      fun p => binIndex (linLum p)) = [0, 99, 21, 5] := by
  simp only [List.map_cons, List.map_nil, binIndex_lum0, binIndex_lum255,
    binIndex_lum128, binIndex_lum64]

/-- Normalized value of each luminance bin of the 2×2 raster. -/
lemma raster2x2_bin_value (j : ℕ) :
    normalizeBin (([0, 99, 21, 5] : List ℤ).count (j : ℤ)) 4
      = if j = 0 ∨ j = 5 ∨ j = 21 ∨ j = 99 then some (25 : ℝ) else some 0 := by
  rw [normalizeBin, if_neg (by norm_num)]
  have hc : (([0, 99, 21, 5] : List ℤ).count (j : ℤ))
      = if j = 0 ∨ j = 5 ∨ j = 21 ∨ j = 99 then 1 else 0 := by
    have e0 : ((j : ℤ) = 0) ↔ j = 0 := by norm_cast
    have e5 : ((j : ℤ) = 5) ↔ j = 5 := by norm_cast
    have e21 : ((j : ℤ) = 21) ↔ j = 21 := by norm_cast
    have e99 : ((j : ℤ) = 99) ↔ j = 99 := by norm_cast
    simp only [List.count_cons, List.count_nil, beq_iff_eq, e0, e5, e21, e99]
    by_cases h0 : j = 0 <;> by_cases h5 : j = 5 <;>
      by_cases h21 : j = 21 <;> by_cases h99 : j = 99 <;> simp_all <;> omega
  rw [hc]
  by_cases h : j = 0 ∨ j = 5 ∨ j = 21 ∨ j = 99
  · rw [if_pos h, if_pos h]
    norm_num
  · rw [if_neg h, if_neg h]
    norm_num

/-- Bridge between a mapped List.range sum and the Finset.range sum. -/
lemma listSum_range_eq_finsetSum (f : ℕ → ℝ) :
    ∀ n : ℕ, ((List.range n).map f).sum = ∑ i ∈ Finset.range n, f i
  | 0 => by simp
  | n + 1 => by
      rw [List.range_succ, List.map_append, List.sum_append, Finset.sum_range_succ,
        listSum_range_eq_finsetSum f n]
      simp

/-- C5: on the 2×2 raster with pixels (0,0,0), (255,255,255), (128,128,128),
(64,64,64), the luminance histogram has exactly the four bins 0, 5, 21, 99
at 25% each (every other bin 0%), the bin indices are strictly increasing
with pixel brightness, and the percentages total 100. -/
theorem raster2x2_luminance_histogram :
    (calculateHistogram raster2x2).luminance
      = (List.range 100).map (fun j =>
          if j = 0 ∨ j = 5 ∨ j = 21 ∨ j = 99 then some (25 : ℝ) else some 0) ∧
    binIndex (linLum (0, 0, 0)) < binIndex (linLum (64, 64, 64)) ∧
    binIndex (linLum (64, 64, 64)) < binIndex (linLum (128, 128, 128)) ∧
    binIndex (linLum (128, 128, 128)) < binIndex (linLum (255, 255, 255)) ∧
    sumOpt (calculateHistogram raster2x2).luminance = 100 := by
  have hlum : (calculateHistogram raster2x2).luminance
      = (List.range 100).map (fun j =>
          if j = 0 ∨ j = 5 ∨ j = 21 ∨ j = 99 then some (25 : ℝ) else some 0) := by
    simp only [calculateHistogram]
    apply List.map_congr_left
    intro j _
    rw [show pixelTriplets raster2x2.data
      = [(0, 0, 0), (255, 255, 255), (128, 128, 128), (64, 64, 64)] from rfl]
    rw [histAccum_lum_count, raster2x2_lum_bins]
    rw [show raster2x2.width * raster2x2.height = 4 from rfl]
    exact raster2x2_bin_value j
  have hsum : sumOpt (calculateHistogram raster2x2).luminance = 100 := by
    rw [sumOpt, hlum, List.map_map]
    have hpt : ∀ j ∈ List.range 100,
        ((fun o => Option.getD o 0) ∘ fun j =>
          if j = 0 ∨ j = 5 ∨ j = 21 ∨ j = 99 then some (25 : ℝ) else some 0) j
        = (if j = 0 then (25 : ℝ) else 0) + (if j = 5 then (25 : ℝ) else 0)
          + (if j = 21 then (25 : ℝ) else 0) + (if j = 99 then (25 : ℝ) else 0) := by
      intro j _
      by_cases h0 : j = 0 <;> by_cases h5 : j = 5 <;>
        by_cases h21 : j = 21 <;> by_cases h99 : j = 99 <;> simp_all
    rw [List.map_congr_left hpt]
    rw [listSum_range_eq_finsetSum]
    simp [Finset.sum_add_distrib, Finset.sum_ite_eq', Finset.mem_range]
    norm_num
  refine ⟨hlum, ?_, ?_, ?_, hsum⟩
  · rw [binIndex_lum0, binIndex_lum64]
    decide
  · rw [binIndex_lum64, binIndex_lum128]
    decide
  · rw [binIndex_lum128, binIndex_lum255]
    decide

end HDR
